import Mathlib

/-! Formal model of the Manufacturing Ops Suite budgeting engine
(src/Dummy1.py): input normalisation (clean_currency_columns), the CVP
analysis columns, the sales and collection scheduler (monthly_rev and the
dynamic lag loop), the production budget (df_prod), the labor/overhead
budget (df_ops) and the master cost consolidation (Master Summary tab).
Numeric cells are modelled as rationals; a pandas NaN entry is modelled
as an `Option` that is `none`. -/

/-- A spreadsheet cell as pandas holds it after upload: either already
numeric, or a raw text value (object dtype column). -/
inductive CellValue where
  | str (s : String)
  | num (q : ℚ)
deriving DecidableEq, Repr

/-- One cell under `df[col].astype(str).str.replace(r'[$,]', '', regex=True)`:
every occurrence of the characters `$` and `,` is removed. -/
def stripDollarComma (s : String) : String :=
  String.mk (s.data.filter (fun c => c != '$' && c != ','))

/-- Value of a digit run, `none` as soon as a non-digit character appears
(the empty run folds to `some 0`; callers rule the empty-input case out). -/
def digitsVal (cs : List Char) : Option ℕ :=
  cs.foldl
    (fun acc c =>
      acc.bind (fun n => if c.isDigit then some (10 * n + (c.toNat - 48)) else none))
    (some 0)

/-- Unsigned decimal literal: an integer part, optionally followed by a dot
and a fractional part; at least one of the two parts must be nonempty. -/
def parseUnsigned (cs : List Char) : Option ℚ :=
  match cs.splitOn '.' with
  | [intPart] =>
      if intPart.isEmpty then none
      else (digitsVal intPart).map (fun n => (n : ℚ))
  | [intPart, fracPart] =>
      if intPart.isEmpty && fracPart.isEmpty then none
      else
        (digitsVal intPart).bind (fun i =>
          (digitsVal fracPart).map (fun f =>
            (i : ℚ) + (f : ℚ) / (10 : ℚ) ^ fracPart.length))
  | _ => none

/-- Model of `pd.to_numeric(value, errors='coerce')` on one textual cell, restricted
to plain decimal literals with an optional sign: `some` the parsed rational,
`none` (NaN) when parsing fails. -/
def parseDecimal (s : String) : Option ℚ :=
  match s.data with
  | '-' :: cs => (parseUnsigned cs).map (fun q => -q)
  | '+' :: cs => parseUnsigned cs
  | cs => parseUnsigned cs

/-- One cell of a listed numeric column after
`pd.to_numeric(..., errors='coerce').fillna(0)`: an already-numeric cell
passes through; a textual cell is stripped of `$` and `,`, parsed, and
falls back to `0` when parsing still fails. -/
def cleanValue : CellValue → ℚ
  | .num q => q
  | .str s => (parseDecimal (stripDollarComma s)).getD 0

/-- Model of `clean_currency_columns(df, numeric_cols)` (src/Dummy1.py lines 33-40):
the table is a list of named columns; each column whose name is listed is
cleaned cell by cell, every other column passes through unchanged (and a
listed name with no matching column is simply skipped). -/
def clean_currency_columns (df : List (String × List CellValue))
    (numeric_cols : List String) : List (String × List CellValue) :=
  df.map (fun col =>
    if col.1 ∈ numeric_cols then
      (col.1, col.2.map (fun v => CellValue.num (cleanValue v)))
    else col)

/-- One row of the uploaded sales forecast after cleaning. -/
structure SalesRow where
  month : String
  product : String
  sales_units : ℚ
  selling_price : ℚ
deriving DecidableEq, Repr

/-- The per-row column `Total_Revenue = Sales_Units * Selling_Price`
(src/Dummy1.py line 161). -/
def totalRevenueRow (r : SalesRow) : ℚ := r.sales_units * r.selling_price

/-- Key order of a pandas `groupby(..., sort=False)`: each key in the order
of its first appearance. -/
def dedupFirst {α : Type} [DecidableEq α] (xs : List α) : List α :=
  xs.foldl (fun acc m => if m ∈ acc then acc else acc ++ [m]) []

/-- Revenue aggregated over the rows of one month. -/
def monthRevenue (rows : List SalesRow) (m : String) : ℚ :=
  ((rows.filter (fun r => r.month == m)).map totalRevenueRow).sum

/-- Model of `monthly_rev = df_sales.groupby('Month', sort=False)['Total_Revenue'].sum()`
(src/Dummy1.py line 164): one (Month, summed revenue) pair per distinct month,
months kept in first-appearance order. -/
def monthly_rev (rows : List SalesRow) : List (String × ℚ) :=
  (dedupFirst (rows.map SalesRow.month)).map (fun m => (m, monthRevenue rows m))

/-- Read of `monthly_rev['Total_Revenue'].shift(lag).fillna(0)` at position `t`:
the revenue `lag` places earlier, `0` for the first `lag` positions. -/
def shiftFill (revs : List ℚ) (lag : ℕ) (t : ℕ) : ℚ :=
  if lag ≤ t then revs.getD (t - lag) 0 else 0

/-- The bucket column `Collection_M{lag}` at position `t`
(src/Dummy1.py line 178): shifted total revenue times `pct / 100`. -/
def collectionCol (revs : List ℚ) (lag : ℕ) (pct : ℚ) (t : ℕ) : ℚ :=
  shiftFill revs lag t * (pct / 100)

/-- The column `Cash_Inflow_Immediate = Total_Revenue * (cash_pct / 100)`
(src/Dummy1.py line 167) at position `t`. -/
def cashInflowImmediate (revs : List ℚ) (cash_pct : ℚ) (t : ℕ) : ℚ :=
  revs.getD t 0 * (cash_pct / 100)

/-- The dynamic loop over `credit_config` (src/Dummy1.py lines 170-179):
starting from the immediate-cash column, each bucket adds its shifted
collection column to the running total. -/
def collectionsLoop (revs : List ℚ) :
    List (ℕ × ℚ) → (ℕ → ℚ) → ℕ → ℚ
  | [], acc => acc
  | b :: rest, acc =>
      collectionsLoop revs rest (fun t => acc t + collectionCol revs b.1 b.2 t)

/-- The column `Total_Cash_Collected` (src/Dummy1.py line 181) at position
`t`, for monthly revenues `revs`, cash percentage `cash_pct` (0-100) and
collection buckets `config` as (lag, pct) pairs. -/
def total_cash_collected (revs : List ℚ) (cash_pct : ℚ)
    (config : List (ℕ × ℚ)) (t : ℕ) : ℚ :=
  collectionsLoop revs config (cashInflowImmediate revs cash_pct) t

/-- The collection formula as the spec words it (spec §4.3), for comparison
with `collectionCol`: the bucket percentage applied to the lagged credit
base `revenue * (1 - cash_pct)` instead of to the lagged total revenue. -/
def specCollectionCol (revs : List ℚ) (cash_pct : ℚ) (lag : ℕ) (pct : ℚ)
    (t : ℕ) : ℚ :=
  (if lag ≤ t then revs.getD (t - lag) 0 else 0) * (1 - cash_pct / 100) * (pct / 100)

/-- A revenue series that is a single isolated sales pulse of size `R` at
month index `k` on a horizon of `n` months. -/
def pulseSeries (n k : ℕ) (R : ℚ) : List ℚ :=
  (List.range n).map (fun i => if i = k then R else 0)

/-- One row of the uploaded inventory-targets table after cleaning. -/
structure InvRow where
  month : String
  product : String
  opening_stock : ℚ
  desired_closing : ℚ
deriving DecidableEq, Repr

/-- One row of the production budget `df_prod`. The inventory columns and
`Production_Units` are `none` (NaN) on sales rows with no matching
inventory row, exactly as the left merge leaves them. -/
structure ProdRow where
  month : String
  product : String
  sales_units : ℚ
  opening_stock : Option ℚ
  desired_closing : Option ℚ
  production_units : Option ℚ
deriving DecidableEq, Repr

/-- The inventory row matching a (Month, Product) key, if any (the merge key
of `pd.merge(..., on=['Month', 'Product'], how='left')`; inventory keys are
unique, so the first match is the match). -/
def lookupInv (inv : List InvRow) (m p : String) : Option InvRow :=
  inv.find? (fun r => r.month == m && r.product == p)

/-- Model of `df_prod` (src/Dummy1.py lines 223-224): left merge of the sales
forecast with the inventory targets on (Month, Product), then
`Production_Units = Sales_Units + Desired_Closing - Opening_Stock`
(NaN-propagating when the inventory side is absent). -/
def df_prod (sales : List SalesRow) (inv : List InvRow) : List ProdRow :=
  sales.map (fun s =>
    match lookupInv inv s.month s.product with
    | some r =>
        { month := s.month, product := s.product, sales_units := s.sales_units,
          opening_stock := some r.opening_stock,
          desired_closing := some r.desired_closing,
          production_units :=
            some (s.sales_units + r.desired_closing - r.opening_stock) }
    | none =>
        { month := s.month, product := s.product, sales_units := s.sales_units,
          opening_stock := none, desired_closing := none,
          production_units := none })

/-- A pandas float as far as the CVP columns need it: a finite rational,
a signed infinity, or NaN (rationals carry no signed zero, so the positive
zero convention is used for the sign of `x / 0`). -/
inductive PFloat where
  | fin (q : ℚ)
  | inf
  | ninf
  | nan
deriving DecidableEq, Repr

/-- Elementwise pandas/NumPy division: a finite nonzero value divided by
zero gives a signed infinity, `0 / 0` gives NaN, and no case raises. -/
def PFloat.div : PFloat → PFloat → PFloat
  | .nan, _ => .nan
  | _, .nan => .nan
  | .fin a, .fin b =>
      if b = 0 then (if a = 0 then .nan else if 0 < a then .inf else .ninf)
      else .fin (a / b)
  | .fin _, .inf => .fin 0
  | .fin _, .ninf => .fin 0
  | .inf, .fin b => if 0 ≤ b then .inf else .ninf
  | .ninf, .fin b => if 0 ≤ b then .ninf else .inf
  | .inf, .inf => .nan
  | .inf, .ninf => .nan
  | .ninf, .inf => .nan
  | .ninf, .ninf => .nan

/-- Scaling by a finite constant (used by the `PV_Ratio_Percent` column). -/
def PFloat.scale (c : ℚ) : PFloat → PFloat
  | .fin q => .fin (c * q)
  | .inf => if 0 < c then .inf else if c = 0 then .nan else .ninf
  | .ninf => if 0 < c then .ninf else if c = 0 then .nan else .inf
  | .nan => .nan

/-- Whether a pandas float is finite (`inf`, `-inf` and NaN are not). -/
def PFloat.isFinite : PFloat → Bool
  | .fin _ => true
  | _ => false

/-- One row of the CVP input after `clean_currency_columns`, so every
numeric column holds a finite value. -/
structure CVPRow where
  product : String
  sales_price : ℚ
  variable_cost : ℚ
  fixed_cost : ℚ
deriving DecidableEq, Repr

/-- The column `Contribution = Sales_Price - Variable_Cost`
(src/Dummy1.py line 68). -/
def contribution (r : CVPRow) : ℚ := r.sales_price - r.variable_cost

/-- The column `PV_Ratio_Percent = (Contribution / Sales_Price) * 100`
(src/Dummy1.py line 69), with pandas float semantics. -/
def pv_ratio_percent (r : CVPRow) : PFloat :=
  PFloat.scale 100 (PFloat.div (.fin (contribution r)) (.fin r.sales_price))

/-- The column `BEP_Units = Fixed_Cost / Contribution`
(src/Dummy1.py line 70), with pandas float semantics: the row computation
is total, a zero contribution yields a non-finite value, never an error. -/
def bep_units (r : CVPRow) : PFloat :=
  PFloat.div (.fin r.fixed_cost) (.fin (contribution r))

/-- One product row of the labor rate card (`edited_labor_rates`, one row
per distinct product of the production table). -/
structure LaborRate where
  product : String
  std_hours_per_unit : ℚ
  hourly_wage_rate : ℚ
deriving DecidableEq, Repr

/-- One row of the labor and overhead budget `df_ops`. Columns that
propagate a NaN from an upstream NaN are `Option`-valued. -/
structure OpsRow where
  month : String
  product : String
  production_units : Option ℚ
  std_hours_per_unit : Option ℚ
  hourly_wage_rate : Option ℚ
  total_labor_hours : Option ℚ
  total_labor_cost : Option ℚ
  total_var_oh : Option ℚ
  allocated_fixed_oh : ℚ
  total_oh_cost : Option ℚ
deriving DecidableEq, Repr

/-- Model of `df_ops` (src/Dummy1.py lines 301-320): the production table left-merged
with the labor rate card on Product (a one-to-one rate lookup), then
`Total_Labor_Hours = Production_Units * Std_Hours_Per_Unit`,
`Total_Labor_Cost = Total_Labor_Hours * Hourly_Wage_Rate`,
`Total_Var_OH = Production_Units * var_oh`,
`Allocated_Fixed_OH = fix_oh / num_records` (`0` when the table is empty)
with `num_records = len(df_ops)`, and
`Total_OH_Cost = Total_Var_OH + Allocated_Fixed_OH`. -/
def df_ops (prod : List ProdRow) (rates : List LaborRate)
    (var_oh fix_oh : ℚ) : List OpsRow :=
  let n := prod.length
  let alloc : ℚ := if 0 < n then fix_oh / (n : ℚ) else 0
  prod.map (fun p =>
    let rm := rates.find? (fun r => r.product == p.product)
    let hours : Option ℚ :=
      match p.production_units, rm with
      | some u, some r => some (u * r.std_hours_per_unit)
      | _, _ => none
    { month := p.month, product := p.product,
      production_units := p.production_units,
      std_hours_per_unit := rm.map LaborRate.std_hours_per_unit,
      hourly_wage_rate := rm.map LaborRate.hourly_wage_rate,
      total_labor_hours := hours,
      total_labor_cost :=
        match hours, rm with
        | some h, some r => some (h * r.hourly_wage_rate)
        | _, _ => none,
      total_var_oh := p.production_units.map (fun u => u * var_oh),
      allocated_fixed_oh := alloc,
      total_oh_cost :=
        p.production_units.map (fun u => u * var_oh + alloc) })

/-- One row of the materials budget `df_materials`, restricted to the
columns the Master Summary reads from it. -/
structure MatRow where
  month : String
  product : String
  material : String
  total_mat_cost : ℚ
deriving DecidableEq, Repr

/-- One row of `ops_sum = df_ops[['Month', 'Product', 'Total_Labor_Cost',
'Total_OH_Cost']]`, on rows whose cost cells are numeric. -/
structure OpsCostRow where
  month : String
  product : String
  total_labor_cost : ℚ
  total_oh_cost : ℚ
deriving DecidableEq, Repr

/-- One row of the consolidated cost sheet `final`. -/
structure FinalRow where
  month : String
  product : String
  total_mat_cost : ℚ
  total_labor_cost : ℚ
  total_oh_cost : ℚ
  total_production_cost : ℚ
deriving DecidableEq, Repr

/-- Model of `mat_sum = df_materials.groupby(['Month', 'Product'])['Total_Mat_Cost']
.sum()` (src/Dummy1.py line 339): one row per distinct (Month, Product)
key with the material costs summed (pandas emits the groups sorted by key;
the keys are modelled in first-appearance order, which carries the same
row set and is immaterial to the properties stated below). -/
def mat_sum (mats : List MatRow) : List (String × String × ℚ) :=
  (dedupFirst (mats.map (fun m => (m.month, m.product)))).map
    (fun k =>
      (k.1, k.2,
        ((mats.filter (fun m => m.month == k.1 && m.product == k.2)).map
          MatRow.total_mat_cost).sum))

/-- Model of `final = pd.merge(mat_sum, ops_sum, on=['Month', 'Product'])`
(src/Dummy1.py line 343), an inner join (pandas' default `how='inner'`),
followed by `Total_Production_Cost = Total_Mat_Cost + Total_Labor_Cost +
Total_OH_Cost` (line 344). -/
def finalMerge (ms : List (String × String × ℚ)) (ops : List OpsCostRow) :
    List FinalRow :=
  ms.flatMap (fun m =>
    (ops.filter (fun o => o.month == m.1 && o.product == m.2.1)).map
      (fun o =>
        { month := m.1, product := m.2.1, total_mat_cost := m.2.2,
          total_labor_cost := o.total_labor_cost,
          total_oh_cost := o.total_oh_cost,
          total_production_cost :=
            m.2.2 + o.total_labor_cost + o.total_oh_cost }))

/-- The Master Summary tab (src/Dummy1.py lines 334-358): the consolidated
cost sheet is produced only when both `df_materials` and `df_ops` are
present in the session state (`if all(k in st.session_state for k in
['df_materials', 'df_ops'])`); otherwise no output table is produced. -/
def masterSummary (materials : Option (List MatRow))
    (ops : Option (List OpsCostRow)) : Option (List FinalRow) :=
  match materials, ops with
  | some m, some o => some (finalMerge (mat_sum m) o)
  | _, _ => none

/-- Modelled from the spec: src/Dummy1.py contains no Cash Budget
Consolidator (its Master Budget module stops at the Master Summary tab),
so the running-balance fold of spec §4.7 is modelled from the spec's words:
each month's closing balance is the previous closing balance plus the
month's net flow. -/
def closingBalancesAux (prev : ℚ) : List ℚ → List ℚ
  | [] => []
  | f :: fs => (prev + f) :: closingBalancesAux (prev + f) fs

/-- Modelled from the spec: `Closing_Balance[t] = Closing_Balance[t-1] +
Net_Flow[t]`, with the balance before the first period equal to the
caller-supplied `opening_cash` (spec §4.7). -/
def closing_balances (opening_cash : ℚ) (net_flows : List ℚ) : List ℚ :=
  closingBalancesAux opening_cash net_flows

set_option maxRecDepth 4000

/-- C4: for every input table and listed numeric column, the cleaned table
holds that column with every cell stripped of `$` and `,`, parsed, and
defaulted to `0` on parse failure (the whole pipeline is a total function,
so no input raises); in particular `"$1,234.50"` cleans to `1234.50` and
`"garbage"` cleans to `0`. -/
theorem clean_currency_columns_spec (df : List (String × List CellValue))
    (numeric_cols : List String) (name : String) (vals : List CellValue)
    (hmem : (name, vals) ∈ df) (hcol : name ∈ numeric_cols) :
    (name, vals.map (fun v => CellValue.num (cleanValue v)))
        ∈ clean_currency_columns df numeric_cols ∧
    cleanValue (CellValue.str "$1,234.50") = 1234.50 ∧
    cleanValue (CellValue.str "garbage") = 0 := by
  refine ⟨?_, by with_unfolding_all decide, by with_unfolding_all decide⟩
  have h := List.mem_map_of_mem
    (fun col : String × List CellValue =>
      if col.1 ∈ numeric_cols then
        (col.1, col.2.map (fun v => CellValue.num (cleanValue v)))
      else col) hmem
  simpa [clean_currency_columns, hcol] using h

/-- Witness for C4 on a one-column table. -/
theorem clean_currency_columns_spec_witness :
    ("Sales_Price", ([CellValue.str "$1,234.50"]).map
        (fun v => CellValue.num (cleanValue v)))
        ∈ clean_currency_columns
            [("Sales_Price", [CellValue.str "$1,234.50"])] ["Sales_Price"] ∧
    cleanValue (CellValue.str "$1,234.50") = 1234.50 ∧
    cleanValue (CellValue.str "garbage") = 0 :=
  clean_currency_columns_spec
    [("Sales_Price", [CellValue.str "$1,234.50"])] ["Sales_Price"]
    "Sales_Price" [CellValue.str "$1,234.50"] (by simp) (by simp)

/-- Positional read of `pulseSeries`: the pulse value at index `k` inside
the horizon, zero everywhere else. -/
theorem pulseSeries_getD (n k : ℕ) (R : ℚ) (t : ℕ) :
    (pulseSeries n k R).getD t 0 = if t < n ∧ t = k then R else 0 := by
  unfold pulseSeries
  rw [List.getD_eq_getElem?_getD]
  rw [List.getElem?_map]
  rcases Nat.lt_or_ge t n with h | h
  · rw [List.getElem?_range h]
    simp [h]
  · rw [List.getElem?_eq_none (by simpa using h)]
    simp only [Option.map_none', Option.getD_none]
    rw [if_neg]
    rintro ⟨h1, h2⟩
    omega

/-- Shifting a pulse series by `lag` moves the pulse to index `k + lag`. -/
theorem shiftFill_pulse (n k lag : ℕ) (R : ℚ) (hk : k < n) (t : ℕ) :
    shiftFill (pulseSeries n k R) lag t = if t = k + lag then R else 0 := by
  unfold shiftFill
  rw [pulseSeries_getD]
  by_cases hl : lag ≤ t
  · rw [if_pos hl]
    by_cases ht : t = k + lag
    · subst ht
      have h1 : k + lag - lag = k := by omega
      rw [h1, if_pos ⟨hk, rfl⟩, if_pos rfl]
    · rw [if_neg, if_neg ht]
      rintro ⟨h1, h2⟩
      omega
  · rw [if_neg hl, if_neg]
    omega

/-- Summed over the whole horizon, a shifted pulse column contributes the
full pulse once, provided the shifted position still lies in the horizon. -/
theorem sum_shiftFill_pulse (n k lag : ℕ) (R : ℚ) (hk : k + lag < n) :
    ∑ t in Finset.range n, shiftFill (pulseSeries n k R) lag t = R := by
  have hk2 : k < n := by omega
  rw [Finset.sum_congr rfl (fun t _ => shiftFill_pulse n k lag R hk2 t)]
  rw [Finset.sum_ite_eq' (Finset.range n) (k + lag) (fun _ => R)]
  rw [if_pos (Finset.mem_range.mpr hk)]

/-- Closed form of the dynamic collection loop: whatever column it starts
from, it ends at that column plus the sum of the bucket columns. -/
theorem collectionsLoop_eq (revs : List ℚ) (config : List (ℕ × ℚ))
    (acc : ℕ → ℚ) (t : ℕ) :
    collectionsLoop revs config acc t
      = acc t + (config.map (fun b => collectionCol revs b.1 b.2 t)).sum := by
  induction config generalizing acc with
  | nil => simp [collectionsLoop]
  | cons b rest ih =>
      rw [collectionsLoop, ih]
      simp [add_assoc]

/-- Membership in `dedupFirst`: it only reorders and drops duplicates, it invents no keys. -/
theorem mem_of_mem_dedupFirst {α : Type} [DecidableEq α] {xs : List α} {x : α}
    (h : x ∈ dedupFirst xs) : x ∈ xs := by
  have aux : ∀ (ys acc : List α),
      x ∈ ys.foldl (fun a m => if m ∈ a then a else a ++ [m]) acc →
      x ∈ acc ∨ x ∈ ys := by
    intro ys
    induction ys with
    | nil => intro acc h2; exact Or.inl h2
    | cons y ys ih =>
        intro acc h2
        rw [List.foldl_cons] at h2
        rcases ih _ h2 with hacc | hys
        · by_cases hy : y ∈ acc
          · rw [if_pos hy] at hacc
            exact Or.inl hacc
          · rw [if_neg hy] at hacc
            rcases List.mem_append.mp hacc with h3 | h3
            · exact Or.inl h3
            · have hxy : x = y := List.mem_singleton.mp h3
              exact Or.inr (hxy ▸ List.mem_cons_self y ys)
        · exact Or.inr (List.mem_cons_of_mem y hys)
  rcases aux xs [] h with h2 | h2
  · exact absurd h2 (List.not_mem_nil x)
  · exact h2

/-- C1, counterexample: on the series with revenue 100 in month 0 and 0 in
month 1, with `cash_pct = 20` and the single bucket (lag 1, 50%), the code's
`Total_Cash_Collected` in month 1 is `100 * 50% = 50`, not the
`immediate + credit_base * 50% = 80 * 50% = 40` that the spec's credit-base
formula gives: the loop multiplies the bucket percentage by the lagged
*total revenue*, never by the credit base `revenue * (1 - cash_pct)`. -/
theorem collection_credit_base_counterexample :
    collectionCol [100, 0] 1 50 1 ≠ specCollectionCol [100, 0] 20 1 50 1 ∧
    total_cash_collected [100, 0] 20 [(1, 50)] 1
      ≠ cashInflowImmediate [100, 0] 20 1
        + specCollectionCol [100, 0] 20 1 50 1 := by
  refine ⟨by with_unfolding_all decide, by with_unfolding_all decide⟩

/-- C1 (amended): for every monthly revenue series, cash percentage and
bucket list, each bucket's collection at month `t` equals the *total
revenue* at month `t - lag` times `pct` (with revenue before the horizon
treated as zero), not the credit base times `pct`; and
`Total_Cash_Collected[t]` equals the immediate cash portion plus the sum
over all buckets of these lagged collections. -/
theorem total_cash_collected_amended (revs : List ℚ) (cash_pct : ℚ)
    (config : List (ℕ × ℚ)) (t : ℕ) :
    (∀ b ∈ config, collectionCol revs b.1 b.2 t
        = (if b.1 ≤ t then revs.getD (t - b.1) 0 else 0) * (b.2 / 100)) ∧
    total_cash_collected revs cash_pct config t
      = revs.getD t 0 * (cash_pct / 100)
        + (config.map (fun b => collectionCol revs b.1 b.2 t)).sum := by
  refine ⟨fun b _ => rfl, ?_⟩
  simpa [total_cash_collected, cashInflowImmediate] using
    collectionsLoop_eq revs config (cashInflowImmediate revs cash_pct) t

/-- Witness for C1 at a concrete input: series [100, 0], cash 10%, one
bucket (lag 1, 90%). -/
theorem total_cash_collected_amended_witness :
    collectionCol [100, 0] 1 90 1
        = (if 1 ≤ 1 then ([100, 0] : List ℚ).getD (1 - 1) 0 else 0) * (90 / 100) ∧
    total_cash_collected [100, 0] 10 [(1, 90)] 1
      = ([100, 0] : List ℚ).getD 1 0 * (10 / 100)
        + (([(1, 90)] : List (ℕ × ℚ)).map
            (fun b => collectionCol [100, 0] b.1 b.2 1)).sum :=
  ⟨(total_cash_collected_amended [100, 0] 10 [(1, 90)] 1).1 (1, 90) (by simp),
   (total_cash_collected_amended [100, 0] 10 [(1, 90)] 1).2⟩

/-- C2: a single isolated sales pulse of size `R` at month `k`, with 20%
cash sales and the credit balance (80% of revenue) collected 60%/40% at
lags 1 and 2 — that is, configured bucket percentages 48 and 32 of total
revenue, so that cash plus lag percentages sum to 100 — is collected in
full: the sum of `Total_Cash_Collected` over the whole horizon equals `R`
(the horizon must reach two months past the pulse). -/
theorem pulse_conservation (n k : ℕ) (R : ℚ) (h : k + 3 ≤ n) :
    ∑ t in Finset.range n,
      total_cash_collected (pulseSeries n k R) 20 [(1, 48), (2, 32)] t = R := by
  have e : ∀ t, total_cash_collected (pulseSeries n k R) 20 [(1, 48), (2, 32)] t
      = shiftFill (pulseSeries n k R) 0 t * (20 / 100)
        + (shiftFill (pulseSeries n k R) 1 t * (48 / 100)
           + shiftFill (pulseSeries n k R) 2 t * (32 / 100)) := by
    intro t
    have hc := collectionsLoop_eq (pulseSeries n k R) [(1, 48), (2, 32)]
      (cashInflowImmediate (pulseSeries n k R) 20) t
    simp only [total_cash_collected] at *
    rw [hc]
    simp [cashInflowImmediate, collectionCol, shiftFill]
  rw [Finset.sum_congr rfl (fun t _ => e t)]
  rw [Finset.sum_add_distrib, Finset.sum_add_distrib]
  rw [← Finset.sum_mul, ← Finset.sum_mul, ← Finset.sum_mul]
  rw [sum_shiftFill_pulse n k 0 R (by omega),
      sum_shiftFill_pulse n k 1 R (by omega),
      sum_shiftFill_pulse n k 2 R (by omega)]
  ring

/-- Witness for C2: a pulse of 100 in month 0 on a 4-month horizon. -/
theorem pulse_conservation_witness :
    ∑ t in Finset.range 4,
      total_cash_collected (pulseSeries 4 0 100) 20 [(1, 48), (2, 32)] t = 100 :=
  pulse_conservation 4 0 100 (by omega)

/-- C3: every row of `df_prod` whose inventory columns are present (the
left join matched) has
`Production_Units = Sales_Units + Desired_Closing - Opening_Stock`,
exactly — in particular a negative value is carried through unclamped. -/
theorem df_prod_production_units (sales : List SalesRow) (inv : List InvRow)
    (row : ProdRow) (hrow : row ∈ df_prod sales inv) (o c : ℚ)
    (ho : row.opening_stock = some o) (hc : row.desired_closing = some c) :
    row.production_units = some (row.sales_units + c - o) := by
  rcases List.mem_map.mp hrow with ⟨s, hs, rfl⟩
  cases hfind : lookupInv inv s.month s.product with
  | none =>
      simp only [hfind] at ho
      exact absurd ho (by simp)
  | some r =>
      simp only [hfind] at ho hc ⊢
      obtain rfl : r.opening_stock = o := by simpa using ho
      obtain rfl : r.desired_closing = c := by simpa using hc
      rfl

/-- Witness for C3, at an input whose production requirement is negative
(10 units sold, closing target 0, opening stock 60 gives -50): the
negative value is preserved in the output. -/
theorem df_prod_production_units_witness :
    (ProdRow.mk "Jan" "Widget A" 10 (some 60) (some 0) (some (-50))).production_units
      = some ((ProdRow.mk "Jan" "Widget A" 10 (some 60) (some 0) (some (-50))).sales_units
          + 0 - 60) :=
  df_prod_production_units
    [SalesRow.mk "Jan" "Widget A" 10 5] [InvRow.mk "Jan" "Widget A" 60 0]
    (ProdRow.mk "Jan" "Widget A" 10 (some 60) (some 0) (some (-50)))
    (by with_unfolding_all decide) 60 0 rfl rfl

set_option maxRecDepth 4000

/-- C5: the running balance is a prefix sum — for every opening cash,
net-flow series and in-range month `t`,
`Closing_Balance[t] = opening_cash + Σ_{i ≤ t} Net_Flow[i]`,
negative flows included. -/
theorem closing_balance_prefix_sum (opening_cash : ℚ) (flows : List ℚ)
    (t : ℕ) (h : t < flows.length) :
    (closing_balances opening_cash flows).getD t 0
      = opening_cash + (flows.take (t + 1)).sum := by
  unfold closing_balances
  induction flows generalizing opening_cash t with
  | nil => simp at h
  | cons f fs ih =>
      cases t with
      | zero => simp [closingBalancesAux]
      | succ t =>
          have h2 : t < fs.length := by simpa using h
          rw [closingBalancesAux, List.getD_cons_succ, ih (opening_cash + f) t h2]
          simp [List.take_succ_cons]
          ring

/-- Witness for C5 on a deficit walk: flows 5 then -20 from opening 10. -/
theorem closing_balance_prefix_sum_witness :
    (closing_balances 10 [5, -20]).getD 1 0
      = 10 + (([5, -20] : List ℚ).take 2).sum :=
  closing_balance_prefix_sum 10 [5, -20] 1 (by simp)

/-- C6: the Master Summary produces its consolidated cost sheet exactly
when both `df_materials` and `df_ops` are present — a missing stage yields
no output at all (never a zero-filled substitute) — and every produced row
satisfies `Total_Production_Cost = Total_Mat_Cost + Total_Labor_Cost +
Total_OH_Cost`. -/
theorem master_summary_guard :
    (∀ o, masterSummary none o = none) ∧
    (∀ m, masterSummary m none = none) ∧
    (∀ mats ops, masterSummary (some mats) (some ops)
        = some (finalMerge (mat_sum mats) ops)) ∧
    (∀ mats ops row, row ∈ finalMerge (mat_sum mats) ops →
        row.total_production_cost
          = row.total_mat_cost + row.total_labor_cost + row.total_oh_cost) := by
  refine ⟨fun o => rfl, fun m => ?_, fun mats ops => rfl,
    fun mats ops row hrow => ?_⟩
  · cases m <;> rfl
  · rcases List.mem_flatMap.mp hrow with ⟨k, hk, hrow2⟩
    rcases List.mem_map.mp hrow2 with ⟨o, ho, rfl⟩
    rfl

/-- Witness for C6: the row equation at a concrete one-row consolidation. -/
theorem master_summary_guard_witness :
    (FinalRow.mk "Jan" "Widget A" 100 31500 5250 36850).total_production_cost
      = (FinalRow.mk "Jan" "Widget A" 100 31500 5250 36850).total_mat_cost
        + (FinalRow.mk "Jan" "Widget A" 100 31500 5250 36850).total_labor_cost
        + (FinalRow.mk "Jan" "Widget A" 100 31500 5250 36850).total_oh_cost :=
  master_summary_guard.2.2.2
    [MatRow.mk "Jan" "Widget A" "Steel" 100]
    [OpsCostRow.mk "Jan" "Widget A" 31500 5250]
    (FinalRow.mk "Jan" "Widget A" 100 31500 5250 36850)
    (by norm_num [finalMerge, mat_sum, dedupFirst])

/-- C7: a CVP row whose sales price equals its variable cost (zero
contribution) still gets a `BEP_Units` value — `bep_units` is a total
function, nothing is raised — and that value is non-finite (a signed
infinity, or NaN when the fixed cost is also zero). -/
theorem bep_units_zero_contribution (r : CVPRow)
    (h : r.sales_price = r.variable_cost) :
    (bep_units r).isFinite = false := by
  have hc : contribution r = 0 := by simp [contribution, h]
  rw [bep_units, hc]
  rcases lt_trichotomy r.fixed_cost 0 with hf | hf | hf
  · simp [PFloat.div, hf.ne, not_lt_of_gt hf, PFloat.isFinite]
  · simp [PFloat.div, hf, PFloat.isFinite]
  · simp [PFloat.div, hf.ne', hf, PFloat.isFinite]

/-- Witness for C7: price 100 = variable cost 100, fixed cost 50000. -/
theorem bep_units_zero_contribution_witness :
    (bep_units (CVPRow.mk "Product A" 100 100 50000)).isFinite = false :=
  bep_units_zero_contribution (CVPRow.mk "Product A" 100 100 50000) rfl

/-- C8: the months of `monthly_rev` are exactly the input months in order
of first appearance (no alphabetical sort), and each month's aggregated
revenue is the sum of `Sales_Units * Selling_Price` over the rows sharing
that month. -/
theorem monthly_rev_spec (rows : List SalesRow) :
    (monthly_rev rows).map Prod.fst = dedupFirst (rows.map SalesRow.month) ∧
    ∀ p ∈ monthly_rev rows,
      p.2 = ((rows.filter (fun r => r.month == p.1)).map
        (fun r => r.sales_units * r.selling_price)).sum := by
  constructor
  · show List.map Prod.fst (List.map (fun m => (m, monthRevenue rows m))
        (dedupFirst (List.map SalesRow.month rows))) = _
    rw [List.map_map]
    exact List.map_id _
  · intro p hp
    rcases List.mem_map.mp hp with ⟨m, hm, rfl⟩
    rfl

/-- Witness for C8 on a two-month forecast entered in the order Jun, Jan
(which an alphabetical sort would reverse). -/
theorem monthly_rev_spec_witness :
    (monthly_rev [SalesRow.mk "Jun" "Widget A" 2 5,
        SalesRow.mk "Jan" "Widget A" 3 5]).map Prod.fst
      = dedupFirst ([SalesRow.mk "Jun" "Widget A" 2 5,
          SalesRow.mk "Jan" "Widget A" 3 5].map SalesRow.month) ∧
    ("Jun", (10 : ℚ)).2
      = (([SalesRow.mk "Jun" "Widget A" 2 5,
            SalesRow.mk "Jan" "Widget A" 3 5].filter
              (fun r => r.month == ("Jun", (10 : ℚ)).1)).map
          (fun r => r.sales_units * r.selling_price)).sum :=
  ⟨(monthly_rev_spec [SalesRow.mk "Jun" "Widget A" 2 5,
      SalesRow.mk "Jan" "Widget A" 3 5]).1,
   (monthly_rev_spec [SalesRow.mk "Jun" "Widget A" 2 5,
      SalesRow.mk "Jan" "Widget A" 3 5]).2
     ("Jun", 10)
     (List.mem_map.mpr ⟨"Jun", by decide, by
       have h : monthRevenue [SalesRow.mk "Jun" "Widget A" 2 5,
           SalesRow.mk "Jan" "Widget A" 3 5] "Jun" = 10 := by
         with_unfolding_all decide
       rw [h]⟩)⟩

/-- C9: every row of `df_ops` over a nonempty production table has
`Allocated_Fixed_OH = fix_oh / num_records` with `num_records` the row
count of the table — which equals the count of distinct (Month, Product)
rows whenever the table has no duplicate keys — and, on rows whose
`Production_Units` is present,
`Total_OH_Cost = Production_Units * var_oh + Allocated_Fixed_OH`. -/
theorem df_ops_overhead (prod : List ProdRow) (rates : List LaborRate)
    (var_oh fix_oh : ℚ) (row : OpsRow)
    (hrow : row ∈ df_ops prod rates var_oh fix_oh) (hne : prod ≠ [])
    (u : ℚ) (hu : row.production_units = some u) :
    row.allocated_fixed_oh = fix_oh / (prod.length : ℚ) ∧
    row.total_oh_cost = some (u * var_oh + fix_oh / (prod.length : ℚ)) ∧
    ((prod.map (fun p => (p.month, p.product))).Nodup →
      prod.length = (prod.map (fun p => (p.month, p.product))).dedup.length) := by
  have hlen : 0 < prod.length := List.length_pos.mpr hne
  rcases List.mem_map.mp hrow with ⟨p, hp, rfl⟩
  simp only at hu ⊢
  refine ⟨?_, ?_, ?_⟩
  · show (if 0 < prod.length then fix_oh / (prod.length : ℚ) else 0) = _
    rw [if_pos hlen]
  · show (p.production_units.map
        (fun u => u * var_oh
          + if 0 < prod.length then fix_oh / (prod.length : ℚ) else 0)) = _
    rw [if_pos hlen]
    have hpu : p.production_units = some u := hu
    rw [hpu, Option.map_some']
  · intro hnd
    rw [List.dedup_eq_self.mpr hnd, List.length_map]

/-- Witness for C9 on a one-row production table: 1050 units, variable
rate 5, fixed overhead 10000 shared over one record. -/
theorem df_ops_overhead_witness :
    (OpsRow.mk "Jan" "Widget A" (some 1050) (some 2) (some 15) (some 2100)
        (some 31500) (some 5250) 10000 (some 15250)).allocated_fixed_oh
      = 10000 / ((([ProdRow.mk "Jan" "Widget A" 1050 (some 100) (some 150)
            (some 1050)] : List ProdRow).length : ℚ)) ∧
    (OpsRow.mk "Jan" "Widget A" (some 1050) (some 2) (some 15) (some 2100)
        (some 31500) (some 5250) 10000 (some 15250)).total_oh_cost
      = some (1050 * 5 + 10000 / ((([ProdRow.mk "Jan" "Widget A" 1050
          (some 100) (some 150) (some 1050)] : List ProdRow).length : ℚ))) ∧
    ((([ProdRow.mk "Jan" "Widget A" 1050 (some 100) (some 150) (some 1050)]
        : List ProdRow).map (fun p => (p.month, p.product))).Nodup →
      ([ProdRow.mk "Jan" "Widget A" 1050 (some 100) (some 150) (some 1050)]
        : List ProdRow).length
        = (([ProdRow.mk "Jan" "Widget A" 1050 (some 100) (some 150)
            (some 1050)] : List ProdRow).map
              (fun p => (p.month, p.product))).dedup.length) :=
  df_ops_overhead
    [ProdRow.mk "Jan" "Widget A" 1050 (some 100) (some 150) (some 1050)]
    [LaborRate.mk "Widget A" 2 15] 5 10000
    (OpsRow.mk "Jan" "Widget A" (some 1050) (some 2) (some 15) (some 2100)
      (some 31500) (some 5250) 10000 (some 15250))
    (by norm_num [df_ops]) (by simp) 1050 rfl

/-- C10: the consolidated cost sheet is an inner join — every output row's
(Month, Product) key occurs both among the material rows and among the
labor/overhead rows, so a key present in only one of the two tables never
reaches the output (it is dropped, not zero-filled). -/
theorem final_merge_inner (mats : List MatRow) (ops : List OpsCostRow)
    (row : FinalRow) (hrow : row ∈ finalMerge (mat_sum mats) ops) :
    (∃ m ∈ mats, m.month = row.month ∧ m.product = row.product) ∧
    (∃ o ∈ ops, o.month = row.month ∧ o.product = row.product) := by
  rcases List.mem_flatMap.mp hrow with ⟨k, hk, hrow2⟩
  rcases List.mem_map.mp hrow2 with ⟨o, ho, rfl⟩
  rcases List.mem_filter.mp ho with ⟨homem, hkey⟩
  constructor
  · rcases List.mem_map.mp hk with ⟨p, hp, hpk⟩
    have hpmem : p ∈ mats.map (fun m => (m.month, m.product)) :=
      mem_of_mem_dedupFirst hp
    rcases List.mem_map.mp hpmem with ⟨m, hm, hmp⟩
    refine ⟨m, hm, ?_, ?_⟩
    · show m.month = k.1
      rw [← hpk, ← hmp]
    · show m.product = k.2.1
      rw [← hpk, ← hmp]
  · have h1 : o.month = k.1 ∧ o.product = k.2.1 := by
      have h2 := hkey
      simp only [Bool.and_eq_true, beq_iff_eq] at h2
      exact h2
    exact ⟨o, homem, h1.1, h1.2⟩

/-- Witness for C10 at a concrete one-row join. -/
theorem final_merge_inner_witness :
    (∃ m ∈ [MatRow.mk "Jan" "Widget A" "Steel" 100],
        m.month = (FinalRow.mk "Jan" "Widget A" 100 31500 5250 36850).month ∧
        m.product = (FinalRow.mk "Jan" "Widget A" 100 31500 5250 36850).product) ∧
    (∃ o ∈ [OpsCostRow.mk "Jan" "Widget A" 31500 5250],
        o.month = (FinalRow.mk "Jan" "Widget A" 100 31500 5250 36850).month ∧
        o.product = (FinalRow.mk "Jan" "Widget A" 100 31500 5250 36850).product) :=
  final_merge_inner
    [MatRow.mk "Jan" "Widget A" "Steel" 100]
    [OpsCostRow.mk "Jan" "Widget A" 31500 5250]
    (FinalRow.mk "Jan" "Widget A" 100 31500 5250 36850)
    (by norm_num [finalMerge, mat_sum, dedupFirst])
